import Mathlib

/-!
Verification development for the traccar-chatkit backend.

Shallow embedding of `backend/app/traccar.py`, `backend/app/chat.py`,
`backend/app/memory_store.py`, `backend/app/sqlite_store.py` and
`backend/app/neon_store.py`, with theorems settling the specification
claims about origin routing, credential forwarding, geofence body
construction, date formatting, HTML rendering, continuation persistence,
store upsert semantics, pagination and the managed-Postgres import.
-/

set_option maxRecDepth 8192

namespace TraccarChatkit

/-! ## Inbound HTTP requests

A `Request` models the inbound HTTP request as seen through the header
lookups the backend performs (`request.headers.get(...)`); a field is
`none` when the header is absent. -/

structure Request where
  origin : Option String
  xFleetSession : Option String
  cookie : Option String
deriving Repr, DecidableEq

/-! ## Tracking API client (`backend/app/traccar.py`) -/

/-- The fixed allow-list of white-labeled origins in `_get_traccar_url`. -/
def fleetmap_origins : List String :=
  ["https://moviflotte.com",
   "https://localizalia.net",
   "https://web.fleetrack.cl",
   "https://nogartel.fleetmap.io"]

/-- Python `s.startswith(p)`: `p`'s characters are a prefix of `s`'s. -/
def pyStartsWith (s p : String) : Bool :=
  p.data.isPrefixOf s.data

/-- `_get_traccar_url(request)`: reads the `Origin` header (absent when the
request is missing); if the origin is truthy and prefix-matches an entry of
`fleetmap_origins`, returns `http://gps.fleetmap.pt`, else
`http://gps.frotaweb.com`. -/
def _get_traccar_url (request : Option Request) : String :=
  let origin := request.bind Request.origin
  match origin with
  | some o =>
      if o ≠ "" && fleetmap_origins.any (fun domain => pyStartsWith o domain) then
        "http://gps.fleetmap.pt"
      else
        "http://gps.frotaweb.com"
  | none => "http://gps.frotaweb.com"

/-- The cookie credential extracted in `get`/`put`/`post`:
`request.headers.get("cookie") if request and hasattr(request, "headers") else None`. -/
def requestCookie (request : Option Request) : Option String :=
  request.bind Request.cookie

/-- The header dictionary built by `get` (`{"Cookie": cookie, "Accept": "application/json"}`);
a value of `none` models Python `None`. -/
def getRequestHeaders (request : Option Request) : List (String × Option String) :=
  [("Cookie", requestCookie request), ("Accept", some "application/json")]

/-- The headers actually emitted on the wire: the HTTP library drops every
header whose value is `None`. -/
def sentHeaders (headers : List (String × Option String)) : List (String × String) :=
  headers.filterMap (fun kv => kv.2.map (fun v => (kv.1, v)))

/-- The `Cookie` header emitted on an outbound tracking-API call built from
`request`, or `none` when no `Cookie` header is sent. -/
def emittedCookie (request : Option Request) : Option String :=
  ((sentHeaders (getRequestHeaders request)).find? (fun kv => kv.1 = "Cookie")).map
    (fun kv => kv.2)

/-! ### Geofence mutation bodies -/

/-- A JSON value appearing in a geofence body (`null`, string or integer). -/
inductive BodyVal where
  | nullv : BodyVal
  | s : String → BodyVal
  | i : Int → BodyVal
deriving Repr, DecidableEq

/-- `get_body(area, description, name, _id=0)`: starts from `{"id": _id}` and
adds `name`, `description`, `area` in that order, each only when supplied. -/
def get_body (area description name : Option String) (_id : Option Int) :
    List (String × BodyVal) :=
  let body := [("id", _id.elim BodyVal.nullv BodyVal.i)]
  let body := match name with
    | some n => body ++ [("name", BodyVal.s n)]
    | none => body
  let body := match description with
    | some d => body ++ [("description", BodyVal.s d)]
    | none => body
  match area with
  | some a => body ++ [("area", BodyVal.s a)]
  | none => body

/-- The JSON body sent by `post(path, request, name, description, area)`:
`get_body(area, description, name)` with the default `_id=0`. -/
def postBody (name description area : Option String) : List (String × BodyVal) :=
  get_body area description name (some 0)

/-- The JSON body sent by `put(path, request, id, name, description, area)`:
`get_body(area, description, name, id)`. -/
def putBody (id : Option Int) (name description area : Option String) :
    List (String × BodyVal) :=
  get_body area description name id

/-- The body `update_geofence(geofence_id, area, name, description)` sends:
it calls `put` with all of `id`, `area`, `name` supplied and `description`
passed through. -/
def updateGeofenceBody (geofence_id : Int) (area name : String)
    (description : Option String) : List (String × BodyVal) :=
  putBody (some geofence_id) (some name) description (some area)

/-- The body `create_geofence(area, name, description)` sends: it calls
`post` with `area` and `name` supplied and `description` passed through. -/
def createGeofenceBody (area name : String) (description : Option String) :
    List (String × BodyVal) :=
  postBody (some name) description (some area)

/-! ### Date formatting (`_format_date`)

Python `datetime` values are embedded as wall-clock fields plus an optional
UTC offset (the `tzinfo`); `astimezone(timezone.utc)` and `strftime` are
embedded through proleptic-Gregorian calendar arithmetic, exactly the
calendar `datetime` implements. -/

/-- Wall-clock fields of a `datetime` (proleptic Gregorian, year 1..9999). -/
structure DateFields where
  year : Nat
  month : Nat
  day : Nat
  hour : Nat
  minute : Nat
  second : Nat
deriving Repr, DecidableEq

/-- Days from 1970-01-01 of a civil date (proleptic Gregorian), using
Euclidean division. -/
def daysFromCivil (y : Int) (m d : Nat) : Int :=
  let y' : Int := if m ≤ 2 then y - 1 else y
  let era : Int := y'.ediv 400
  let yoe : Nat := (y'.emod 400).toNat
  let mp : Nat := (m + 9) % 12
  let doy : Nat := (153 * mp + 2) / 5 + d - 1
  let doe : Nat := yoe * 365 + yoe / 4 - yoe / 100 + doy
  era * 146097 + (doe : Int) - 719468

/-- Civil date (proleptic Gregorian) of a count of days from 1970-01-01. -/
def civilFromDays (z : Int) : Int × Nat × Nat :=
  let z' : Int := z + 719468
  let era : Int := z'.ediv 146097
  let doe : Nat := (z'.emod 146097).toNat
  let yoe : Nat := (doe - doe / 1460 + doe / 36524 - doe / 146096) / 365
  let doy : Nat := doe - (365 * yoe + yoe / 4 - yoe / 100)
  let mp : Nat := (5 * doy + 2) / 153
  let d : Nat := doy - (153 * mp + 2) / 5 + 1
  let m : Nat := if mp < 10 then mp + 3 else mp - 9
  (era * 400 + (yoe : Int) + (if m ≤ 2 then 1 else 0), m, d)

/-- Seconds from the epoch of the wall-clock fields read as UTC. -/
def fieldsToSeconds (f : DateFields) : Int :=
  daysFromCivil (f.year : Int) f.month f.day * 86400
    + ((f.hour * 3600 + f.minute * 60 + f.second : Nat) : Int)

/-- Wall-clock fields (in UTC) of a count of seconds from the epoch. -/
def fieldsFromSeconds (t : Int) : DateFields :=
  let days := t.ediv 86400
  let secs := (t.emod 86400).toNat
  let ymd := civilFromDays days
  { year := ymd.1.toNat, month := ymd.2.1, day := ymd.2.2,
    hour := secs / 3600, minute := secs % 3600 / 60, second := secs % 60 }

/-- A Python `datetime`: wall-clock fields plus the `tzinfo` UTC offset in
minutes (`none` for a naive value). -/
structure PyDatetime where
  fields : DateFields
  utcOffsetMinutes : Option Int
deriving Repr, DecidableEq

/-- The instant (seconds from the epoch) an aware `datetime` denotes. -/
def PyDatetime.instant (v : PyDatetime) : Int :=
  fieldsToSeconds v.fields - (v.utcOffsetMinutes.getD 0) * 60

/-- Left-pad the decimal rendering of `n` with zeros to width `w`
(`strftime` zero-padding). -/
def padZeros (w n : Nat) : String :=
  let s := toString n
  String.mk (List.replicate (w - s.length) '0') ++ s

/-- `strftime('%Y-%m-%dT%H:%M:%SZ')` applied to wall-clock fields. -/
def strftimeISO (f : DateFields) : String :=
  padZeros 4 f.year ++ "-" ++ padZeros 2 f.month ++ "-" ++ padZeros 2 f.day
    ++ "T" ++ padZeros 2 f.hour ++ ":" ++ padZeros 2 f.minute ++ ":"
    ++ padZeros 2 f.second ++ "Z"

/-- A value passed to `_format_date`: a `datetime` or any other value. -/
inductive PyValue where
  | dt : PyDatetime → PyValue
  | str : String → PyValue
  | int : Int → PyValue
deriving Repr, DecidableEq

/-- `_format_date(value)`: a `datetime` is converted to UTC when aware
(`value.astimezone(timezone.utc) if value.tzinfo else value`) and rendered
with `strftime('%Y-%m-%dT%H:%M:%SZ')`; any other value is returned
unchanged. -/
def _format_date : PyValue → PyValue
  | PyValue.dt v =>
      match v.utcOffsetMinutes with
      | some off =>
          PyValue.str (strftimeISO (fieldsFromSeconds (fieldsToSeconds v.fields - off * 60)))
      | none => PyValue.str (strftimeISO v.fields)
  | v => v

/-! ## Chat server (`backend/app/chat.py`) -/

/-- `_save_html(html, thread_id)`: writes `html` to
`reports/html_<thread_id>_<timestamp>_<rand>.html`; returns the filename and
the written contents. `timestamp` and `rand` stand for the
`datetime.now().strftime(...)` and `uuid4().hex[:8]` values. -/
def _save_html (html thread_id timestamp rand : String) : String × String :=
  ("html_" ++ thread_id ++ "_" ++ timestamp ++ "_" ++ rand ++ ".html", html)

/-- Outcome of the `show_html` tool: the file written (name and contents),
the recorded client tool call, and the structured tool result
(`Except.error` for an `{"error": ...}` payload). -/
structure ShowHtmlResult where
  savedFile : Option (String × String)
  clientToolCall : Option (String × String)
  toolResult : Except String String
deriving Repr

/-- `show_html(ctx, html)`: saves the HTML via `_save_html`, records a
`show_html` client tool call carrying the raw HTML, and returns
`{"result": "success"}`; there is no branching on the HTML contents. -/
def show_html (html thread_id timestamp rand : String) : ShowHtmlResult :=
  { savedFile := some (_save_html html thread_id timestamp rand),
    clientToolCall := some ("show_html", html),
    toolResult := Except.ok "success" }

/-! ### Continuation persistence in `respond` -/

/-- Python `dict` lookup on a duplicate-free association list. -/
def dictGet? (m : List (String × String)) (k : String) : Option String :=
  (m.find? (fun kv => kv.1 = k)).map (fun kv => kv.2)

/-- Python `dict` assignment `m[k] = v`: replaces the value in place when
the key exists, appends otherwise. -/
def dictSet : List (String × String) → String → String → List (String × String)
  | [], k, v => [(k, v)]
  | kv :: rest, k, v =>
      if kv.1 = k then (k, v) :: rest else kv :: dictSet rest k v

/-- Thread metadata as `respond` sees it: identifier plus metadata map. -/
structure ThreadMeta where
  id : String
  metadata : List (String × String)
deriving Repr, DecidableEq

/-- Observable outcome of one `respond` turn's continuation handling. -/
structure RespondOutcome where
  thread : ThreadMeta
  savedThread : Bool
  passedPreviousResponseId : Option String
deriving Repr, DecidableEq

/-- The continuation handling of `respond`: read `previous_response_id`
from the thread's metadata and pass it to `Runner.run_streamed`; after the
stream, if the run exposes `last_response_id`, store it under
`previous_response_id` and save the thread; otherwise leave the thread
untouched and save nothing. -/
def respondContinuation (thread : ThreadMeta) (lastResponseId : Option String) :
    RespondOutcome :=
  let metadata := thread.metadata
  let previous := dictGet? metadata "previous_response_id"
  match lastResponseId with
  | some rid =>
      { thread := { thread with metadata := dictSet metadata "previous_response_id" rid },
        savedThread := true,
        passedPreviousResponseId := previous }
  | none =>
      { thread := thread, savedThread := false, passedPreviousResponseId := previous }

/-! ## Conversation stores

Shared embedding of the sort-and-paginate logic of `load_threads` /
`load_thread_items` (identical in `sqlite_store.py` and
`memory_store.py`), then the two store variants. -/

/-- A page returned by the store listing operations. -/
structure Page (α : Type) where
  data : List α
  hasMore : Bool
  after : Option String
deriving Repr, DecidableEq

/-- Python `list.sort(key=key, reverse=desc)`: a stable sort on the key,
with reversed comparisons (but stable ties) when `desc`. Embedded as a
stable insertion sort; a stable sort under a total preorder is unique, so
this computes exactly Python's result. -/
def pySortByKey {α : Type} (desc : Bool) (key : α → Nat) (l : List α) : List α :=
  if desc then l.insertionSort (fun a b => key b ≤ key a)
  else l.insertionSort (fun a b => key a ≤ key b)

/-- Index of the last occurrence of `a` in `ids` (the index surviving in
`index_map = {x.id: idx for idx, x in enumerate(xs)}`). -/
def lastIdx? : List String → String → Option Nat
  | [], _ => none
  | x :: rest, a =>
      match lastIdx? rest a with
      | some j => some (j + 1)
      | none => if x = a then some 0 else none

/-- The slice start index: `index_map.get(after, -1) + 1`, or `0` with no
cursor. -/
def pageStart (ids : List String) (after : Option String) : Nat :=
  match after with
  | none => 0
  | some a =>
      match lastIdx? ids a with
      | some i => i + 1
      | none => 0

/-- The pagination epilogue shared by all listing operations:
`slice = xs[start : start + limit + 1]`, `has_more = len(slice) > limit`,
`data = slice[:limit]`, cursor `= data[-1].id if has_more and data else None`. -/
def paginate {α : Type} (getId : α → String) (after : Option String) (limit : Nat)
    (l : List α) : Page α :=
  let start := pageStart (l.map getId) after
  let slice := (l.drop start).take (limit + 1)
  let data := slice.take limit
  let more := decide (limit < slice.length)
  { data := data,
    hasMore := more,
    after := if more && !data.isEmpty then data.getLast?.map getId else none }

/-- Thread metadata as stored (identifier and creation stamp). -/
structure SThread where
  id : String
  created_at : Nat
deriving Repr, DecidableEq

/-- A row of the `threads` table of `sqlite_store.py`: `save_thread` always
writes the primary-key column equal to `thread.id`, so the row is its
`user_id` column plus the deserialized `data` column. -/
structure ThreadRow where
  user_id : Option String
  thread : SThread
deriving Repr, DecidableEq

/-- A thread item as stored (identifier, payload, creation stamp). -/
structure ItemRec where
  id : String
  content : String
  created_at : Nat
deriving Repr, DecidableEq

/-- A row of the `thread_items` table: `add_thread_item` always writes the
primary-key column equal to `item.id`, so the row is its `thread_id` column
plus the deserialized `data` column. -/
structure ItemRow where
  thread_id : String
  item : ItemRec
deriving Repr, DecidableEq

/-! ### Stateless SQLite store (`backend/app/sqlite_store.py`) -/

/-- `SQLiteStore.load_threads(limit, after, order, context)`: with no
resolved user email, an empty page; otherwise the rows with that
`user_id`, sorted by creation time per `order`, sliced by
`after`/`limit`. -/
def sqliteLoadThreads (rows : List ThreadRow) (userEmail : Option String)
    (limit : Nat) (after : Option String) (order : String) : Page SThread :=
  match userEmail with
  | none => { data := [], hasMore := false, after := none }
  | some u =>
      let threads := (rows.filter (fun r => r.user_id = some u)).map ThreadRow.thread
      let sorted := pySortByKey (order == "desc") SThread.created_at threads
      paginate SThread.id after limit sorted

/-- `SQLiteStore.load_thread_items(thread_id, after, limit, order, context)`:
the thread's item rows (SQL `ORDER BY created_at`), re-sorted per `order`,
sliced by `after`/`limit`. -/
def sqliteLoadThreadItems (rows : List ItemRow) (tid : String)
    (after : Option String) (limit : Nat) (order : String) : Page ItemRec :=
  let items := pySortByKey false ItemRec.created_at
    ((rows.filter (fun r => r.thread_id = tid)).map ItemRow.item)
  let sorted := pySortByKey (order == "desc") ItemRec.created_at items
  paginate ItemRec.id after limit sorted

/-- The full user-visible thread list `load_threads` slices: the rows with
the user's `user_id`, sorted by creation time per `order`. -/
def sqliteListedThreads (rows : List ThreadRow) (u : String) (order : String) :
    List SThread :=
  pySortByKey (order == "desc") SThread.created_at
    ((rows.filter (fun r => r.user_id = some u)).map ThreadRow.thread)

/-- The full item list `load_thread_items` slices: the thread's rows as the
SQL query orders them, re-sorted per `order`. -/
def sqliteListedItems (rows : List ItemRow) (tid : String) (order : String) :
    List ItemRec :=
  pySortByKey (order == "desc") ItemRec.created_at
    (pySortByKey false ItemRec.created_at
      ((rows.filter (fun r => r.thread_id = tid)).map ItemRow.item))

/-- `SQLiteStore.add_thread_item` / `save_item`: SQL
`INSERT OR REPLACE INTO thread_items` keyed on the item identifier. -/
def sqliteAddThreadItem (rows : List ItemRow) (tid : String) (item : ItemRec) :
    List ItemRow :=
  rows.filter (fun r => r.item.id ≠ item.id) ++ [{ thread_id := tid, item := item }]

/-- `SQLiteStore.load_item(thread_id, item_id, context)`: first matching
item of the thread or `NotFoundError`. -/
def sqliteLoadItem (rows : List ItemRow) (tid iid : String) : Except String ItemRec :=
  let items := pySortByKey false ItemRec.created_at
    ((rows.filter (fun r => r.thread_id = tid)).map ItemRow.item)
  match items.find? (fun it => it.id = iid) with
  | some it => Except.ok it
  | none => Except.error ("Item " ++ iid ++ " not found")

/-! ### In-process-cache store (`backend/app/memory_store.py`) -/

/-- The `_ThreadState` dataclass: thread metadata plus cached items. -/
structure MThreadState where
  thread : SThread
  items : List ItemRec
deriving Repr, DecidableEq

/-- The in-process-cache store's state: the `_threads` cache plus the
backing SQLite tables. -/
structure MemoryStore where
  cache : List (String × MThreadState)
  dbThreads : List (String × SThread)
  dbItems : List ItemRow
deriving Repr, DecidableEq

/-- `_load_thread_from_db`: the thread row plus its items ordered by
creation time. -/
def memLoadThreadFromDb (s : MemoryStore) (tid : String) : Option MThreadState :=
  (s.dbThreads.find? (fun p => p.1 = tid)).map (fun p =>
    { thread := p.2,
      items := pySortByKey false ItemRec.created_at
        ((s.dbItems.filter (fun r => r.thread_id = tid)).map ItemRow.item) })

/-- `MemoryStore.load_thread` (the in-process variant): cache hit, else
database fallback that populates the cache, else `NotFoundError`. -/
def memLoadThread (s : MemoryStore) (tid : String) :
    Except String (SThread × MemoryStore) :=
  match s.cache.find? (fun p => p.1 = tid) with
  | some p => Except.ok (p.2.thread, s)
  | none =>
      match memLoadThreadFromDb s tid with
      | some st => Except.ok (st.thread, { s with cache := s.cache ++ [(tid, st)] })
      | none => Except.error ("Thread " ++ tid ++ " not found")

/-- `MemoryStore._items(thread_id)`: the cached item list, synthesizing an
empty `_ThreadState` with a fresh `ThreadMetadata(id, created_at=now)` on a
cache miss. -/
def memItems (s : MemoryStore) (tid : String) (now : Nat) :
    List ItemRec × MemoryStore :=
  match s.cache.find? (fun p => p.1 = tid) with
  | some p => (p.2.items, s)
  | none =>
      ([], { s with cache := s.cache ++ [(tid, { thread := { id := tid, created_at := now }, items := [] })] })

/-- `MemoryStore.load_thread_items`: sorts and paginates the cached items
returned by `_items` (with its cache-populating side effect). -/
def memLoadThreadItems (s : MemoryStore) (tid : String) (after : Option String)
    (limit : Nat) (order : String) (now : Nat) : Page ItemRec × MemoryStore :=
  let r := memItems s tid now
  let sorted := pySortByKey (order == "desc") ItemRec.created_at r.1
  (paginate ItemRec.id after limit sorted, r.2)

/-- `MemoryStore.add_thread_item`: appends to the cached item list, then
writes the item through to SQLite with `INSERT OR REPLACE`. -/
def memAddThreadItem (s : MemoryStore) (tid : String) (item : ItemRec)
    (now : Nat) : MemoryStore :=
  let s' := (memItems s tid now).2
  let s'' := { s' with cache := s'.cache.map (fun p : String × MThreadState =>
      if p.1 = tid then (p.1, { thread := p.2.thread, items := p.2.items ++ [item] }) else p) }
  { s'' with dbItems := sqliteAddThreadItem s''.dbItems tid item }

/-- `MemoryStore.load_item`: first cached item with the identifier or
`NotFoundError`. -/
def memLoadItem (s : MemoryStore) (tid iid : String) (now : Nat) :
    Except String ItemRec × MemoryStore :=
  let r := memItems s tid now
  match r.1.find? (fun it => it.id = iid) with
  | some it => (Except.ok it, r.2)
  | none => (Except.error ("Item " ++ iid ++ " not found"), r.2)

/-! ## Managed-Postgres store import (`backend/app/neon_store.py`) -/

/-- The names defined at module level by `backend/app/traccar.py`. -/
def traccarModuleNames : List String :=
  ["_get_traccar_url", "_format_date", "get", "put", "post", "get_body"]

/-- Whether the module-level statement `from .traccar import invoke` of
`neon_store.py` succeeds: it does exactly when the tracking client module
defines `invoke`. -/
def neonModuleLoads : Bool :=
  traccarModuleNames.contains "invoke"

/-- Executing `neon_store.py` as a module: the first effectful statement is
`from .traccar import invoke`, which raises `ImportError` when the name is
missing, so nothing later in the module (the `NeonStore` class and all its
methods) becomes available. -/
def neonModuleImport : Except String Unit :=
  if traccarModuleNames.contains "invoke" then Except.ok ()
  else Except.error "ImportError: cannot import name invoke from app.traccar"

/-! ## Helper lemmas -/

theorem dictGet?_dictSet (m : List (String × String)) (k v : String) :
    dictGet? (dictSet m k v) k = some v := by
  induction m with
  | nil => simp [dictSet, dictGet?]
  | cons kv rest ih =>
      by_cases h : kv.1 = k
      · simp [dictSet, h, dictGet?]
      · simp only [dictSet, if_neg h, dictGet?, List.find?]
        rw [decide_eq_false h]
        simpa [dictGet?] using ih

theorem lastIdx?_eq_none {xs : List String} {a : String} (h : a ∉ xs) :
    lastIdx? xs a = none := by
  induction xs with
  | nil => rfl
  | cons x rest ih =>
      simp only [List.mem_cons, not_or] at h
      simp only [lastIdx?, ih h.2]
      exact if_neg (fun hxa => h.1 hxa.symm)

theorem lastIdx?_lt_length {xs : List String} {a : String} {i : Nat}
    (h : lastIdx? xs a = some i) : i < xs.length := by
  induction xs generalizing i with
  | nil => simp [lastIdx?] at h
  | cons x rest ih =>
      simp only [lastIdx?] at h
      cases hr : lastIdx? rest a with
      | some j =>
          rw [hr] at h
          cases h
          exact Nat.succ_lt_succ (ih hr)
      | none =>
          rw [hr] at h
          by_cases hx : x = a
          · rw [if_pos hx] at h
            cases h
            exact Nat.succ_pos _
          · rw [if_neg hx] at h
            cases h

theorem lastIdx?_of_nodup {xs : List String} (hN : xs.Nodup) {i : Nat}
    (hi : i < xs.length) : lastIdx? xs (xs.get ⟨i, hi⟩) = some i := by
  induction xs generalizing i with
  | nil => exact absurd hi (Nat.not_lt_zero i)
  | cons x rest ih =>
      cases i with
      | zero =>
          have hx : x ∉ rest := (List.nodup_cons.mp hN).1
          simp [lastIdx?, lastIdx?_eq_none hx]
      | succ j =>
          have hj : j < rest.length := Nat.lt_of_succ_lt_succ hi
          have hrec := ih (List.nodup_cons.mp hN).2 hj
          simp only [List.get_eq_getElem] at hrec ⊢
          simp [lastIdx?, hrec]

theorem pageStart_le_length (ids : List String) (after : Option String) :
    pageStart ids after ≤ ids.length := by
  cases after with
  | none => exact Nat.zero_le _
  | some a =>
      simp only [pageStart]
      cases h : lastIdx? ids a with
      | none => exact Nat.zero_le _
      | some i => exact lastIdx?_lt_length h

section PaginateLemmas

variable {α : Type} (getId : α → String) (after : Option String) (limit : Nat) (l : List α)

theorem paginate_data_def :
    (paginate getId after limit l).data
      = ((l.drop (pageStart (l.map getId) after)).take (limit + 1)).take limit := rfl

theorem paginate_hasMore_def :
    (paginate getId after limit l).hasMore
      = decide (limit < ((l.drop (pageStart (l.map getId) after)).take (limit + 1)).length) := rfl

theorem paginate_after_def :
    (paginate getId after limit l).after
      = if (paginate getId after limit l).hasMore
            && !(paginate getId after limit l).data.isEmpty
        then (paginate getId after limit l).data.getLast?.map getId
        else none := rfl

theorem paginate_data :
    (paginate getId after limit l).data
      = (l.drop (pageStart (l.map getId) after)).take limit := by
  rw [paginate_data_def, List.take_take, Nat.min_eq_left (Nat.le_succ limit)]

theorem paginate_length_le : (paginate getId after limit l).data.length ≤ limit := by
  rw [paginate_data]
  simp only [List.length_take]
  omega

theorem paginate_hasMore_iff :
    (paginate getId after limit l).hasMore = true
      ↔ pageStart (l.map getId) after + limit < l.length := by
  rw [paginate_hasMore_def]
  simp only [List.length_take, List.length_drop, decide_eq_true_eq]
  omega

theorem paginate_decomp :
    ∃ rest, l.drop (pageStart (l.map getId) after)
        = (paginate getId after limit l).data ++ rest
      ∧ ((paginate getId after limit l).hasMore = true ↔ rest ≠ []) := by
  refine ⟨(l.drop (pageStart (l.map getId) after)).drop limit, ?_, ?_⟩
  · rw [paginate_data]
    exact (List.take_append_drop _ _).symm
  · rw [paginate_hasMore_iff]
    constructor
    · intro h
      rw [← List.length_pos]
      simp only [List.length_drop]
      omega
    · intro h
      have hp := List.length_pos.mpr h
      simp only [List.length_drop] at hp
      omega

theorem paginate_data_length_of_hasMore
    (hm : (paginate getId after limit l).hasMore = true) :
    (paginate getId after limit l).data.length = limit := by
  rw [paginate_hasMore_iff] at hm
  rw [paginate_data]
  simp only [List.length_take, List.length_drop]
  omega

theorem paginate_cursor (hl : 0 < limit)
    (hm : (paginate getId after limit l).hasMore = true) :
    ∃ x, (paginate getId after limit l).data.getLast? = some x
      ∧ (paginate getId after limit l).after = some (getId x) := by
  have hlen := paginate_data_length_of_hasMore getId after limit l hm
  have hne : (paginate getId after limit l).data ≠ [] := by
    rw [← List.length_pos, hlen]
    exact hl
  cases hx : (paginate getId after limit l).data.getLast? with
  | none =>
      rw [List.getLast?_eq_none_iff] at hx
      exact absurd hx hne
  | some x =>
      refine ⟨x, rfl, ?_⟩
      rw [paginate_after_def, hm, hx]
      simp [hne]

theorem paginate_sublist : (paginate getId after limit l).data.Sublist l := by
  rw [paginate_data]
  exact ((l.drop (pageStart (l.map getId) after)).take_sublist limit).trans
    (l.drop_sublist (pageStart (l.map getId) after))

theorem pageStart_getElem (hN : (l.map getId).Nodup) (i : Nat) (hi : i < l.length) :
    pageStart (l.map getId) (some (getId (l.get ⟨i, hi⟩))) = i + 1 := by
  have hi' : i < (l.map getId).length := by simpa using hi
  have hmap : (l.map getId).get ⟨i, hi'⟩ = getId (l.get ⟨i, hi⟩) := by
    simp
  simp only [pageStart]
  rw [← hmap, lastIdx?_of_nodup hN hi']

theorem paginate_at_index (hN : (l.map getId).Nodup) (i : Nat) (hi : i < l.length) :
    (paginate getId (some (getId (l.get ⟨i, hi⟩))) limit l).data
      = (l.drop (i + 1)).take limit := by
  rw [paginate_data, pageStart_getElem getId l hN i hi]

theorem paginate_excludes_seen (hN : (l.map getId).Nodup) (i : Nat) (hi : i < l.length) :
    ∀ x ∈ (paginate getId (some (getId (l.get ⟨i, hi⟩))) limit l).data,
      getId x ∉ (l.take (i + 1)).map getId := by
  intro x hx hmem
  rw [paginate_at_index getId limit l hN i hi] at hx
  have hxdrop : x ∈ l.drop (i + 1) := List.mem_of_mem_take hx
  have hxmap : getId x ∈ (l.drop (i + 1)).map getId := List.mem_map_of_mem getId hxdrop
  have hsplit : (l.take (i + 1)).map getId ++ (l.drop (i + 1)).map getId = l.map getId := by
    rw [← List.map_append, List.take_append_drop]
  have hN' : ((l.take (i + 1)).map getId ++ (l.drop (i + 1)).map getId).Nodup := by
    rw [hsplit]; exact hN
  exact (List.nodup_append.mp hN').2.2 hmem hxmap

theorem paginate_past_end (hN : (l.map getId).Nodup) (h : l ≠ []) :
    paginate getId (some (getId (l.getLast h))) limit l
      = { data := [], hasMore := false, after := none } := by
  have hpos : 0 < l.length := List.length_pos.mpr h
  have hi : l.length - 1 < l.length := by omega
  have hlast : l.getLast h = l.get ⟨l.length - 1, hi⟩ := List.getLast_eq_get l h
  have hstart : pageStart (l.map getId) (some (getId (l.getLast h))) = l.length := by
    rw [hlast, pageStart_getElem getId l hN (l.length - 1) hi]
    omega
  have hdata : (paginate getId (some (getId (l.getLast h))) limit l).data = [] := by
    rw [paginate_data, hstart, List.drop_length, List.take_nil]
  have hmore : (paginate getId (some (getId (l.getLast h))) limit l).hasMore = false := by
    rw [← Bool.not_eq_true, paginate_hasMore_iff, hstart]
    omega
  have hafter : (paginate getId (some (getId (l.getLast h))) limit l).after = none := by
    rw [paginate_after_def, hmore]
    simp
  rw [show paginate getId (some (getId (l.getLast h))) limit l
        = Page.mk (paginate getId (some (getId (l.getLast h))) limit l).data
            (paginate getId (some (getId (l.getLast h))) limit l).hasMore
            (paginate getId (some (getId (l.getLast h))) limit l).after from rfl,
      hdata, hmore, hafter]

theorem paginate_nil :
    paginate getId after limit ([] : List α) = { data := [], hasMore := false, after := none } := by
  cases after <;> simp [paginate, pageStart, lastIdx?]

end PaginateLemmas

theorem pairwise_pySortByKey_asc {α : Type} (key : α → Nat) (l : List α) :
    (pySortByKey false key l).Pairwise (fun a b => key a ≤ key b) := by
  haveI : IsTotal α (fun a b => key a ≤ key b) :=
    ⟨fun a b => Nat.le_total (key a) (key b)⟩
  haveI : IsTrans α (fun a b => key a ≤ key b) :=
    ⟨fun a b c h1 h2 => Nat.le_trans h1 h2⟩
  simpa [pySortByKey] using List.sorted_insertionSort (fun a b => key a ≤ key b) l

theorem pairwise_pySortByKey_desc {α : Type} (key : α → Nat) (l : List α) :
    (pySortByKey true key l).Pairwise (fun a b => key b ≤ key a) := by
  haveI : IsTotal α (fun a b => key b ≤ key a) :=
    ⟨fun a b => Nat.le_total (key b) (key a)⟩
  haveI : IsTrans α (fun a b => key b ≤ key a) :=
    ⟨fun a b c h1 h2 => Nat.le_trans h2 h1⟩
  simpa [pySortByKey] using List.sorted_insertionSort (fun a b => key b ≤ key a) l

theorem perm_pySortByKey {α : Type} (desc : Bool) (key : α → Nat) (l : List α) :
    List.Perm (pySortByKey desc key l) l := by
  cases desc <;> simp only [pySortByKey, Bool.false_eq_true, if_false, if_true] <;>
    exact List.perm_insertionSort _ _

theorem nodup_pySortByKey {α : Type} (desc : Bool) (key : α → Nat)
    {f : α → String} {l : List α} (hN : (l.map f).Nodup) :
    ((pySortByKey desc key l).map f).Nodup :=
  (((perm_pySortByKey desc key l).map f).symm).nodup hN

theorem sqliteLoadThreads_eq_paginate (rows : List ThreadRow) (u : String)
    (limit : Nat) (after : Option String) (order : String) :
    sqliteLoadThreads rows (some u) limit after order
      = paginate SThread.id after limit (sqliteListedThreads rows u order) := rfl

theorem sqliteLoadThreadItems_eq_paginate (rows : List ItemRow) (tid : String)
    (limit : Nat) (after : Option String) (order : String) :
    sqliteLoadThreadItems rows tid after limit order
      = paginate ItemRec.id after limit (sqliteListedItems rows tid order) := rfl

theorem nodup_sqliteListedThreads (rows : List ThreadRow) (u : String)
    (order : String) (hN : (rows.map (fun r => r.thread.id)).Nodup) :
    ((sqliteListedThreads rows u order).map SThread.id).Nodup := by
  have h1 : ((rows.filter (fun r => r.user_id = some u)).map (fun r => r.thread.id)).Nodup :=
    hN.sublist (List.Sublist.map _ (List.filter_sublist rows))
  have h2 : (((rows.filter (fun r => r.user_id = some u)).map ThreadRow.thread).map SThread.id).Nodup := by
    rw [List.map_map]
    exact h1
  exact nodup_pySortByKey (order == "desc") SThread.created_at h2

theorem nodup_sqliteListedItems (rows : List ItemRow) (tid : String)
    (order : String) (hN : (rows.map (fun r => r.item.id)).Nodup) :
    ((sqliteListedItems rows tid order).map ItemRec.id).Nodup := by
  have h1 : ((rows.filter (fun r => r.thread_id = tid)).map (fun r => r.item.id)).Nodup :=
    hN.sublist (List.Sublist.map _ (List.filter_sublist rows))
  have h2 : (((rows.filter (fun r => r.thread_id = tid)).map ItemRow.item).map ItemRec.id).Nodup := by
    rw [List.map_map]
    exact h1
  exact nodup_pySortByKey (order == "desc") ItemRec.created_at
    (nodup_pySortByKey false ItemRec.created_at h2)

/-! ## Claim theorems -/

/-- **C1, counterexample.** The claim says a request whose `Origin` header
equals an allow-list entry resolves to
`https://traccar-eu.joaquim.workers.dev`; on the code,
`Origin: https://moviflotte.com` (an allow-list entry, hence a prefix
match) resolves to `http://gps.fleetmap.pt` instead. -/
theorem c1_counterexample :
    ("https://moviflotte.com" ∈ fleetmap_origins
        ∧ pyStartsWith "https://moviflotte.com" "https://moviflotte.com" = true)
      ∧ _get_traccar_url (some ⟨some "https://moviflotte.com", none, none⟩)
          = "http://gps.fleetmap.pt"
      ∧ _get_traccar_url (some ⟨some "https://moviflotte.com", none, none⟩)
          ≠ "https://traccar-eu.joaquim.workers.dev" := by
  refine ⟨⟨?_, ?_⟩, ?_, ?_⟩ <;> decide

/-- **C1, amended.** The origin resolver returns `http://gps.fleetmap.pt`
(the dedicated proxy origin of this snapshot) when the `Origin` header is
non-empty and prefix-matches an entry of `fleetmap_origins`, and returns
the default origin `http://gps.frotaweb.com` when the header is absent, is
empty, matches no entry, or no request is available. -/
theorem c1_origin_routing :
    (∀ (r : Request) (o : String), r.origin = some o → o ≠ "" →
        fleetmap_origins.any (fun domain => pyStartsWith o domain) = true →
        _get_traccar_url (some r) = "http://gps.fleetmap.pt")
      ∧ (∀ (r : Request) (o : String), r.origin = some o →
          fleetmap_origins.any (fun domain => pyStartsWith o domain) = false →
          _get_traccar_url (some r) = "http://gps.frotaweb.com")
      ∧ (∀ r : Request, r.origin = none →
          _get_traccar_url (some r) = "http://gps.frotaweb.com")
      ∧ _get_traccar_url none = "http://gps.frotaweb.com" := by
  refine ⟨?_, ?_, ?_, rfl⟩
  · intro r o ho hne hany
    simp [_get_traccar_url, ho, hne, hany]
  · intro r o ho hany
    simp [_get_traccar_url, ho, hany]
  · intro r ho
    simp [_get_traccar_url, ho]

/-- **C1, witness** for `c1_origin_routing`. -/
theorem c1_origin_routing_witness :
    _get_traccar_url (some ⟨some "https://localizalia.net/app", none, none⟩)
        = "http://gps.fleetmap.pt"
      ∧ _get_traccar_url (some ⟨some "https://example.com", none, none⟩)
          = "http://gps.frotaweb.com" :=
  ⟨c1_origin_routing.1 _ "https://localizalia.net/app" rfl (by decide) (by decide),
   c1_origin_routing.2.1 _ "https://example.com" rfl (by decide)⟩

/-- **C2, counterexample.** The claim says `x-fleet-session: abc123` wins
over `Cookie: JSESSIONID=other`; on the code the outbound `Cookie` header
is the inbound `Cookie` header verbatim — the `x-fleet-session` header is
never read. -/
theorem c2_counterexample :
    emittedCookie (some ⟨none, some "abc123", some "JSESSIONID=other"⟩)
        = some "JSESSIONID=other"
      ∧ emittedCookie (some ⟨none, some "abc123", some "JSESSIONID=other"⟩)
          ≠ some "JSESSIONID=abc123" := by
  exact ⟨rfl, by decide⟩

/-- **C2, amended.** Credential selection ignores `x-fleet-session`
entirely: the inbound `Cookie` header is forwarded verbatim when present;
when it is absent, or no request is available, no `Cookie` header is sent. -/
theorem c2_cookie_forwarding :
    (∀ (r : Request) (c : String), r.cookie = some c →
        emittedCookie (some r) = some c)
      ∧ (∀ r : Request, r.cookie = none → emittedCookie (some r) = none)
      ∧ emittedCookie none = none
      ∧ (∀ (r : Request) (x : Option String),
          emittedCookie (some { r with xFleetSession := x }) = emittedCookie (some r)) := by
  refine ⟨?_, ?_, rfl, ?_⟩
  · intro r c hc
    simp [emittedCookie, sentHeaders, getRequestHeaders, requestCookie, hc]
  · intro r hc
    simp [emittedCookie, sentHeaders, getRequestHeaders, requestCookie, hc]
  · intro r x
    simp [emittedCookie, sentHeaders, getRequestHeaders, requestCookie]

/-- **C2, witness** for `c2_cookie_forwarding`. -/
theorem c2_cookie_forwarding_witness :
    emittedCookie (some ⟨none, none, some "JSESSIONID=zz12"⟩)
        = some "JSESSIONID=zz12"
      ∧ emittedCookie (some ⟨none, some "abc", none⟩) = none :=
  ⟨c2_cookie_forwarding.1 _ "JSESSIONID=zz12" rfl,
   c2_cookie_forwarding.2.1 _ rfl⟩

/-- **C3, counterexample.** The claim says HTML whose first script block is
invalid JavaScript (`<script>1 +</script>`) yields an error mentioning
"JavaScript syntax error in script block 1" and saves nothing; on the code
`show_html` performs no script validation: it saves the file and returns a
success result. -/
theorem c3_counterexample :
    (show_html "<script>1 +</script>" "t1" "20240101_000000" "deadbeef").toolResult
        = Except.ok "success"
      ∧ (show_html "<script>1 +</script>" "t1" "20240101_000000" "deadbeef").savedFile
          ≠ none := by
  exact ⟨rfl, by simp [show_html]⟩

/-- **C3, amended.** `show_html` performs no JavaScript validation: for
every HTML string (with valid or invalid script blocks alike) it saves the
HTML file via `_save_html`, records a `show_html` client tool call, and
returns a success result; it never returns an error. -/
theorem c3_show_html_always_succeeds :
    ∀ html thread_id timestamp rand : String,
      (show_html html thread_id timestamp rand).toolResult = Except.ok "success"
        ∧ (show_html html thread_id timestamp rand).savedFile
            = some (_save_html html thread_id timestamp rand)
        ∧ (show_html html thread_id timestamp rand).clientToolCall
            = some ("show_html", html) := by
  intro html thread_id timestamp rand
  exact ⟨rfl, rfl, rfl⟩

/-- **C4.** Continuation persistence in `respond`: when the run exposes a
continuation identifier, the thread's metadata afterwards maps
`previous_response_id` to it and the thread is saved, and the next turn on
that thread passes exactly the stored identifier to the model runner; when
the run exposes no identifier, the thread is unchanged and not saved. -/
theorem c4_continuation_persistence :
    (∀ (t : ThreadMeta) (rid : String),
        dictGet? (respondContinuation t (some rid)).thread.metadata
            "previous_response_id" = some rid
          ∧ (respondContinuation t (some rid)).savedThread = true
          ∧ ∀ next : Option String,
              (respondContinuation (respondContinuation t (some rid)).thread next).passedPreviousResponseId
                = some rid)
      ∧ (∀ t : ThreadMeta,
          (respondContinuation t none).thread = t
            ∧ (respondContinuation t none).savedThread = false) := by
  constructor
  · intro t rid
    refine ⟨?_, rfl, ?_⟩
    · simp [respondContinuation, dictGet?_dictSet]
    · intro next
      cases next <;> simp [respondContinuation, dictGet?_dictSet]
  · intro t
    exact ⟨rfl, rfl⟩

/-- **C5, counterexample.** The claim says the create (POST) body contains
only the supplied subset of `name`, `description`, `area`; on the code
`get_body` always starts from `{"id": 0}`, so the POST body also contains
the key `id`. -/
theorem c5_counterexample :
    "id" ∈ (createGeofenceBody "AREA" "name1" none).map Prod.fst
      ∧ "id" ∉ (["name", "description", "area"] : List String)
      ∧ (createGeofenceBody "AREA" "name1" none).map Prod.fst
          = ["id", "name", "area"] := by
  refine ⟨?_, ?_, rfl⟩ <;> decide

/-- **C5, amended.** The geofence body builders produce exactly the
supplied fields plus an always-present `id` key: the update (PUT) path with
only `area` and `name` supplied yields exactly the keys `id`, `name`,
`area` and omits `description`; the create (POST) path yields `id` (value
`0`) plus exactly the supplied subset of `name`, `description`, `area`. -/
theorem c5_geofence_bodies :
    (∀ (gid : Int) (area name : String),
        (updateGeofenceBody gid area name none).map Prod.fst = ["id", "name", "area"])
      ∧ (∀ (gid : Int) (area name : String) (d : Option String),
          ("description" ∈ (updateGeofenceBody gid area name d).map Prod.fst
            ↔ d.isSome = true))
      ∧ (∀ (name description area : Option String),
          (postBody name description area).map Prod.fst
            = "id" :: ((if name.isSome then ["name"] else [])
                ++ (if description.isSome then ["description"] else [])
                ++ (if area.isSome then ["area"] else [])))
      ∧ (∀ (name description area : Option String),
          (postBody name description area).head? = some ("id", BodyVal.i 0)) := by
  refine ⟨?_, ?_, ?_, ?_⟩
  · intro gid area name
    rfl
  · intro gid area name d
    cases d <;> simp [updateGeofenceBody, putBody, get_body]
  · intro name description area
    cases name <;> cases description <;> cases area <;> rfl
  · intro name description area
    cases name <;> cases description <;> cases area <;> rfl

/-- **C8.** `_format_date` renders any timezone-aware `datetime` as the
UTC instant in `YYYY-MM-DDTHH:MM:SSZ` form, so two representations of the
same instant format identically and 1963-11-22 18:30:00 UTC formats to
`1963-11-22T18:30:00Z`; a naive `datetime` is treated as already UTC and
rendered the same way; every non-`datetime` value passes through
unchanged. -/
theorem c8_format_date :
    (∀ (f1 f2 : DateFields) (o1 o2 : Int),
        fieldsToSeconds f1 - o1 * 60 = fieldsToSeconds f2 - o2 * 60 →
        _format_date (PyValue.dt ⟨f1, some o1⟩) = _format_date (PyValue.dt ⟨f2, some o2⟩))
      ∧ _format_date (PyValue.dt ⟨⟨1963, 11, 22, 18, 30, 0⟩, some 0⟩)
          = PyValue.str "1963-11-22T18:30:00Z"
      ∧ (∀ f : DateFields,
          _format_date (PyValue.dt ⟨f, none⟩) = PyValue.str (strftimeISO f))
      ∧ (∀ s : String, _format_date (PyValue.str s) = PyValue.str s)
      ∧ (∀ n : Int, _format_date (PyValue.int n) = PyValue.int n) := by
  refine ⟨?_, by decide, fun f => rfl, fun s => rfl, fun n => rfl⟩
  intro f1 f2 o1 o2 h
  simp only [_format_date]
  rw [h]

/-- **C8, witness** for `c8_format_date`: the instant of 1963-11-22
18:30:00 UTC expressed at offset +01:00 formats to the same string as its
UTC representation. -/
theorem c8_format_date_witness :
    _format_date (PyValue.dt ⟨⟨1963, 11, 22, 19, 30, 0⟩, some 60⟩)
      = _format_date (PyValue.dt ⟨⟨1963, 11, 22, 18, 30, 0⟩, some 0⟩) :=
  c8_format_date.1 _ _ _ _ (by decide)

/-- **C9, counterexample.** The claim asserts that the managed-Postgres
store's email resolution executes and returns the absent value (and that
`load_threads` / `save_thread` then run with no user identity); in fact
the module-level `from .traccar import invoke` statement fails, because
the tracking client module defines no `invoke`, so `neon_store` never
loads and none of its operations can execute at all. -/
theorem c9_counterexample :
    neonModuleImport ≠ Except.ok () ∧ "invoke" ∉ traccarModuleNames := by
  have h : neonModuleImport
      = Except.error "ImportError: cannot import name invoke from app.traccar" := rfl
  refine ⟨?_, by decide⟩
  intro hok
  rw [h] at hok
  simp at hok

/-- **C9, amended.** Importing the managed-Postgres store module raises
`ImportError` because the tracking client defines no `invoke`; hence no
`NeonStore` operation (email resolution, `load_threads`, `save_thread`)
can run in this snapshot. -/
theorem c9_neon_import_fails :
    neonModuleImport
        = Except.error "ImportError: cannot import name invoke from app.traccar"
      ∧ neonModuleLoads = false :=
  ⟨rfl, rfl⟩

/-- **C10.** For a thread identifier present neither in the cache nor in
the database, `load_thread_items` returns an empty page (instead of
failing) and synthesizes an empty thread state in the cache, so a
subsequent `load_thread` of the same identifier returns the synthesized
thread instead of raising `NotFoundError` (which it would have raised
before the call). -/
theorem c10_missing_thread_synthesis :
    ∀ (s : MemoryStore) (tid : String) (now limit : Nat) (after : Option String)
      (order : String),
      s.cache.find? (fun p => p.1 = tid) = none →
      s.dbThreads.find? (fun p => p.1 = tid) = none →
      (memLoadThreadItems s tid after limit order now).1
          = { data := [], hasMore := false, after := none }
        ∧ memLoadThread (memLoadThreadItems s tid after limit order now).2 tid
            = Except.ok ({ id := tid, created_at := now },
                (memLoadThreadItems s tid after limit order now).2)
        ∧ memLoadThread s tid = Except.error ("Thread " ++ tid ++ " not found") := by
  intro s tid now limit after order hc hd
  have hitems : memItems s tid now
      = ([], { s with cache := s.cache
          ++ [(tid, { thread := { id := tid, created_at := now }, items := [] })] }) := by
    simp [memItems, hc]
  refine ⟨?_, ?_, ?_⟩
  · rw [show (memLoadThreadItems s tid after limit order now).1
        = paginate ItemRec.id after limit
            (pySortByKey (order == "desc") ItemRec.created_at (memItems s tid now).1)
      from rfl, hitems]
    cases order == "desc" <;> simp [pySortByKey, paginate_nil]
  · rw [show (memLoadThreadItems s tid after limit order now).2 = (memItems s tid now).2
      from rfl, hitems]
    simp [memLoadThread, List.find?_append, hc]
  · simp [memLoadThread, hc, memLoadThreadFromDb, hd]

/-- **C10, witness** for `c10_missing_thread_synthesis`. -/
theorem c10_missing_thread_synthesis_witness :
    (memLoadThreadItems ⟨[], [], []⟩ "zz" none 5 "asc" 42).1
        = { data := [], hasMore := false, after := none }
      ∧ memLoadThread (memLoadThreadItems ⟨[], [], []⟩ "zz" none 5 "asc" 42).2 "zz"
          = Except.ok ({ id := "zz", created_at := 42 },
              (memLoadThreadItems ⟨[], [], []⟩ "zz" none 5 "asc" 42).2)
      ∧ memLoadThread (⟨[], [], []⟩ : MemoryStore) "zz"
          = Except.error ("Thread " ++ "zz" ++ " not found") :=
  c10_missing_thread_synthesis ⟨[], [], []⟩ "zz" 42 5 none "asc" rfl rfl

/-- **C6** (code bug): evaluated at the failing input. Adding two items
that share the identifier `item1` to the in-process-cache store leaves
*two* items with that identifier observable through `load_thread_items`,
and `load_item` returns the *first* call's content — while the same
operation's own SQL write-through, and the stateless SQLite store, keep
exactly one item whose content is the second call's, as the claim (and
the store contract) state. -/
theorem c6_upsert_divergence :
    ((memLoadThreadItems
          (memAddThreadItem (memAddThreadItem ⟨[], [], []⟩ "t" ⟨"item1", "first", 1⟩ 10)
            "t" ⟨"item1", "second", 2⟩ 10)
          "t" none 10 "asc" 10).1.data.filter (fun it => it.id = "item1")).length = 2
      ∧ (memLoadItem
            (memAddThreadItem (memAddThreadItem ⟨[], [], []⟩ "t" ⟨"item1", "first", 1⟩ 10)
              "t" ⟨"item1", "second", 2⟩ 10) "t" "item1" 10).1
          = Except.ok ⟨"item1", "first", 1⟩
      ∧ ((memAddThreadItem (memAddThreadItem ⟨[], [], []⟩ "t" ⟨"item1", "first", 1⟩ 10)
            "t" ⟨"item1", "second", 2⟩ 10).dbItems.filter
              (fun r => r.item.id = "item1")).map (fun r => r.item.content) = ["second"]
      ∧ (sqliteLoadThreadItems
            (sqliteAddThreadItem (sqliteAddThreadItem [] "t" ⟨"item1", "first", 1⟩)
              "t" ⟨"item1", "second", 2⟩) "t" none 10 "asc").data
          = [⟨"item1", "second", 2⟩]
      ∧ sqliteLoadItem
            (sqliteAddThreadItem (sqliteAddThreadItem [] "t" ⟨"item1", "first", 1⟩)
              "t" ⟨"item1", "second", 2⟩) "t" "item1"
          = Except.ok ⟨"item1", "second", 2⟩ :=
  ⟨by decide, rfl, by decide, by decide, rfl⟩

/-- **C7.** The pagination contract of the stateless SQLite store, for
`load_threads` (under a resolved user identity) and `load_thread_items`,
for every database state satisfying the primary-key invariant (no
duplicate identifiers) and every positive page size: (a) a page holds at
most `limit` entries; (b) the page is sorted by creation time in the
requested order; (c) `has_more` is true exactly when further entries
exist past the returned page; (d) when `has_more` is true the cursor
equals the last returned entry's identifier; (e) requesting with `after`
equal to a listed entry's identifier yields the subsequent entries,
excluding every already-listed one; (f) requesting past the end yields an
empty page with `has_more` false and no cursor. -/
theorem c7_pagination_contract
    (rows : List ThreadRow) (irows : List ItemRow) (u tid : String)
    (limit : Nat) (after : Option String) (order : String)
    (hNt : (rows.map (fun r => r.thread.id)).Nodup)
    (hNi : (irows.map (fun r => r.item.id)).Nodup)
    (hlim : 0 < limit) :
    ((sqliteLoadThreads rows (some u) limit after order).data.length ≤ limit
      ∧ (sqliteLoadThreadItems irows tid after limit order).data.length ≤ limit)
    ∧ ((order = "desc" →
          (sqliteLoadThreads rows (some u) limit after order).data.Pairwise
            (fun a b => b.created_at ≤ a.created_at)
          ∧ (sqliteLoadThreadItems irows tid after limit order).data.Pairwise
              (fun a b => b.created_at ≤ a.created_at))
        ∧ (order ≠ "desc" →
            (sqliteLoadThreads rows (some u) limit after order).data.Pairwise
              (fun a b => a.created_at ≤ b.created_at)
            ∧ (sqliteLoadThreadItems irows tid after limit order).data.Pairwise
                (fun a b => a.created_at ≤ b.created_at)))
    ∧ ((∃ rest, (sqliteListedThreads rows u order).drop
            (pageStart ((sqliteListedThreads rows u order).map SThread.id) after)
          = (sqliteLoadThreads rows (some u) limit after order).data ++ rest
          ∧ ((sqliteLoadThreads rows (some u) limit after order).hasMore = true
              ↔ rest ≠ []))
        ∧ (∃ rest, (sqliteListedItems irows tid order).drop
              (pageStart ((sqliteListedItems irows tid order).map ItemRec.id) after)
            = (sqliteLoadThreadItems irows tid after limit order).data ++ rest
            ∧ ((sqliteLoadThreadItems irows tid after limit order).hasMore = true
                ↔ rest ≠ [])))
    ∧ (((sqliteLoadThreads rows (some u) limit after order).hasMore = true →
          ∃ x, (sqliteLoadThreads rows (some u) limit after order).data.getLast? = some x
            ∧ (sqliteLoadThreads rows (some u) limit after order).after = some x.id)
        ∧ ((sqliteLoadThreadItems irows tid after limit order).hasMore = true →
            ∃ x, (sqliteLoadThreadItems irows tid after limit order).data.getLast? = some x
              ∧ (sqliteLoadThreadItems irows tid after limit order).after = some x.id))
    ∧ ((∀ (i : Nat) (hi : i < (sqliteListedThreads rows u order).length),
          (sqliteLoadThreads rows (some u) limit
              (some ((sqliteListedThreads rows u order).get ⟨i, hi⟩).id) order).data
            = ((sqliteListedThreads rows u order).drop (i + 1)).take limit
          ∧ ∀ x ∈ (sqliteLoadThreads rows (some u) limit
                (some ((sqliteListedThreads rows u order).get ⟨i, hi⟩).id) order).data,
              x.id ∉ ((sqliteListedThreads rows u order).take (i + 1)).map SThread.id)
        ∧ (∀ (i : Nat) (hi : i < (sqliteListedItems irows tid order).length),
            (sqliteLoadThreadItems irows tid
                (some ((sqliteListedItems irows tid order).get ⟨i, hi⟩).id) limit order).data
              = ((sqliteListedItems irows tid order).drop (i + 1)).take limit
            ∧ ∀ x ∈ (sqliteLoadThreadItems irows tid
                  (some ((sqliteListedItems irows tid order).get ⟨i, hi⟩).id) limit order).data,
                x.id ∉ ((sqliteListedItems irows tid order).take (i + 1)).map ItemRec.id))
    ∧ ((∀ h : sqliteListedThreads rows u order ≠ [],
          sqliteLoadThreads rows (some u) limit
              (some ((sqliteListedThreads rows u order).getLast h).id) order
            = { data := [], hasMore := false, after := none })
        ∧ (∀ h : sqliteListedItems irows tid order ≠ [],
            sqliteLoadThreadItems irows tid
                (some ((sqliteListedItems irows tid order).getLast h).id) limit order
              = { data := [], hasMore := false, after := none })) := by
  have hT := nodup_sqliteListedThreads rows u order hNt
  have hI := nodup_sqliteListedItems irows tid order hNi
  refine ⟨⟨?_, ?_⟩, ⟨?_, ?_⟩, ⟨?_, ?_⟩, ⟨?_, ?_⟩, ⟨?_, ?_⟩, ⟨?_, ?_⟩⟩
  · rw [sqliteLoadThreads_eq_paginate]
    exact paginate_length_le SThread.id after limit (sqliteListedThreads rows u order)
  · rw [sqliteLoadThreadItems_eq_paginate]
    exact paginate_length_le ItemRec.id after limit (sqliteListedItems irows tid order)
  · intro hdesc
    subst hdesc
    constructor
    · refine List.Pairwise.sublist ?_
        (pairwise_pySortByKey_desc SThread.created_at
          ((rows.filter (fun r => r.user_id = some u)).map ThreadRow.thread))
      rw [sqliteLoadThreads_eq_paginate]
      exact paginate_sublist SThread.id after limit (sqliteListedThreads rows u "desc")
    · refine List.Pairwise.sublist ?_
        (pairwise_pySortByKey_desc ItemRec.created_at
          (pySortByKey false ItemRec.created_at
            ((irows.filter (fun r => r.thread_id = tid)).map ItemRow.item)))
      rw [sqliteLoadThreadItems_eq_paginate]
      exact paginate_sublist ItemRec.id after limit (sqliteListedItems irows tid "desc")
  · intro hne
    have hbeq : (order == "desc") = false := by
      simpa using hne
    constructor
    · refine List.Pairwise.sublist ?_
        (pairwise_pySortByKey_asc SThread.created_at
          ((rows.filter (fun r => r.user_id = some u)).map ThreadRow.thread))
      have hlist : sqliteListedThreads rows u order
          = pySortByKey false SThread.created_at
              ((rows.filter (fun r => r.user_id = some u)).map ThreadRow.thread) := by
        rw [sqliteListedThreads, hbeq]
      rw [sqliteLoadThreads_eq_paginate, ← hlist]
      exact paginate_sublist SThread.id after limit (sqliteListedThreads rows u order)
    · refine List.Pairwise.sublist ?_
        (pairwise_pySortByKey_asc ItemRec.created_at
          (pySortByKey false ItemRec.created_at
            ((irows.filter (fun r => r.thread_id = tid)).map ItemRow.item)))
      have hlist : sqliteListedItems irows tid order
          = pySortByKey false ItemRec.created_at
              (pySortByKey false ItemRec.created_at
                ((irows.filter (fun r => r.thread_id = tid)).map ItemRow.item)) := by
        rw [sqliteListedItems, hbeq]
      rw [sqliteLoadThreadItems_eq_paginate, ← hlist]
      exact paginate_sublist ItemRec.id after limit (sqliteListedItems irows tid order)
  · rw [sqliteLoadThreads_eq_paginate]
    exact paginate_decomp SThread.id after limit (sqliteListedThreads rows u order)
  · rw [sqliteLoadThreadItems_eq_paginate]
    exact paginate_decomp ItemRec.id after limit (sqliteListedItems irows tid order)
  · rw [sqliteLoadThreads_eq_paginate]
    exact paginate_cursor SThread.id after limit (sqliteListedThreads rows u order) hlim
  · rw [sqliteLoadThreadItems_eq_paginate]
    exact paginate_cursor ItemRec.id after limit (sqliteListedItems irows tid order) hlim
  · intro i hi
    constructor
    · rw [sqliteLoadThreads_eq_paginate]
      exact paginate_at_index SThread.id limit (sqliteListedThreads rows u order) hT i hi
    · intro x hx
      rw [sqliteLoadThreads_eq_paginate] at hx
      exact paginate_excludes_seen SThread.id limit (sqliteListedThreads rows u order)
        hT i hi x hx
  · intro i hi
    constructor
    · rw [sqliteLoadThreadItems_eq_paginate]
      exact paginate_at_index ItemRec.id limit (sqliteListedItems irows tid order) hI i hi
    · intro x hx
      rw [sqliteLoadThreadItems_eq_paginate] at hx
      exact paginate_excludes_seen ItemRec.id limit (sqliteListedItems irows tid order)
        hI i hi x hx
  · intro h
    rw [sqliteLoadThreads_eq_paginate]
    exact paginate_past_end SThread.id limit (sqliteListedThreads rows u order) hT h
  · intro h
    rw [sqliteLoadThreadItems_eq_paginate]
    exact paginate_past_end ItemRec.id limit (sqliteListedItems irows tid order) hI h

/-- **C7, witness** for `c7_pagination_contract`, at the specification's
example store of five threads (ascending order, page size two). -/
theorem c7_pagination_contract_witness :
    (sqliteLoadThreads
        [⟨some "u", ⟨"t1", 1⟩⟩, ⟨some "u", ⟨"t2", 2⟩⟩, ⟨some "u", ⟨"t3", 3⟩⟩,
         ⟨some "u", ⟨"t4", 4⟩⟩, ⟨some "u", ⟨"t5", 5⟩⟩]
        (some "u") 2 none "asc").data.length ≤ 2 :=
  (c7_pagination_contract
    [⟨some "u", ⟨"t1", 1⟩⟩, ⟨some "u", ⟨"t2", 2⟩⟩, ⟨some "u", ⟨"t3", 3⟩⟩,
     ⟨some "u", ⟨"t4", 4⟩⟩, ⟨some "u", ⟨"t5", 5⟩⟩]
    [] "u" "t" 2 none "asc" (by decide) (by decide) (by decide)).1.1

end TraccarChatkit
